import Mathlib

/-!
Verification development for the WebDowloanderLocal site-mirroring tool.

The Go source (src/downloader/client.go and companions) is shallowly
embedded below.  Strings are modelled by Lean `String` (lists of
characters; the crawled URLs are ASCII, where Go's byte-wise string
operations and Lean's character-wise ones agree).  Go's `net/url.URL`
struct is modelled by the `URL` structure restricted to the fields the
program uses (no Opaque, no Userinfo); `url.Parse` and `URL.String` are
modelled for that subset.  Maps become association lists, channels
become lists, and the HTTP client becomes an oracle from attempt
numbers to attempt outcomes.
-/

namespace WebDL

/-- Character-level test used by the Go byte loops (`c == '/'` etc.). -/
def listStartsWith : List Char → List Char → Bool
  | _, [] => true
  | [], _ :: _ => false
  | c :: cs, p :: ps => c = p && listStartsWith cs ps

/-- `strings.Contains` on character lists: does `pat` occur as a
contiguous run inside `l`? -/
def listHasSub : List Char → List Char → Bool
  | l, pat =>
    listStartsWith l pat ||
      match l with
      | [] => false
      | _ :: rest => listHasSub rest pat

/-- `strings.HasPrefix`. -/
def goStartsWith (s pat : String) : Bool := listStartsWith s.data pat.data

/-- `strings.HasSuffix`. -/
def goEndsWith (s pat : String) : Bool :=
  listStartsWith s.data.reverse pat.data.reverse

/-- `strings.Contains`. -/
def goContains (s pat : String) : Bool := listHasSub s.data pat.data

/-- `strings.TrimSuffix`: drop `pat` from the end of `s` when present,
otherwise return `s` unchanged. -/
def goTrimSuffix (s pat : String) : String :=
  if goEndsWith s pat then ⟨s.data.take (s.data.length - pat.data.length)⟩ else s

/-- `strings.TrimPrefix`: drop `pat` from the front of `s` when present. -/
def goTrimHead (s pat : String) : String :=
  if goStartsWith s pat then ⟨s.data.drop pat.data.length⟩ else s

/-- ASCII lower-casing of one character, as `strings.ToLower` does for
the ASCII range (all URLs handled by the program are ASCII). -/
def charToLower (c : Char) : Char :=
  if 'A' ≤ c ∧ c ≤ 'Z' then Char.ofNat (c.toNat + 32) else c

/-- `strings.ToLower` on ASCII strings. -/
def strToLower (s : String) : String := ⟨s.data.map charToLower⟩

/-- Split a character list at every `'/'` (like `strings.Split (· , "/")`);
always returns at least one (possibly empty) segment. -/
def splitSlash : List Char → List (List Char)
  | [] => [[]]
  | c :: rest =>
    match splitSlash rest with
    | [] => [[]]
    | seg :: segs => if c = '/' then [] :: seg :: segs else (c :: seg) :: segs

/-- Join character-list segments with `'/'`. -/
def joinSlash : List (List Char) → List Char
  | [] => []
  | [seg] => seg
  | seg :: rest => seg ++ '/' :: joinSlash rest

/-- Go `net/url.URL`, restricted to the fields the downloader uses.
`rawQuery` is the text after `?`, `fragment` the text after `#`. -/
structure URL where
  scheme : String
  host : String
  path : String
  rawQuery : String
  fragment : String
deriving DecidableEq, Repr

/-- Is `c` a character allowed inside a URL scheme after the first? -/
def isSchemeChar (c : Char) : Bool :=
  c.isAlpha || c.isDigit || c = '+' || c = '-' || c = '.'

/-- Split `scheme:` off the front of a URL string the way Go's
`getScheme` does: the scheme is non-empty, starts with a letter, and
consists of scheme characters up to a `':'`.  Returns `(scheme, rest)`
with `scheme = ""` when there is none. -/
def cutScheme (l : List Char) : List Char × List Char :=
  let seg := l.takeWhile (fun c => isSchemeChar c)
  let rest := l.drop seg.length
  match rest with
  | ':' :: tail =>
    match seg with
    | [] => ([], l)
    | c :: _ => if c.isAlpha then (seg, tail) else ([], l)
  | _ => ([], l)

/-- Model of `url.Parse` for the hierarchical subset the program feeds
it (no Opaque part, no Userinfo, no percent-decoding): fragment after
the first `#`, query after the first `?`, optional `scheme:`
(lower-cased), optional `//host`, rest is the path. -/
def urlParse (s : String) : URL :=
  let l := s.data
  let beforeFrag := l.takeWhile (fun c => c ≠ '#')
  let frag := (l.drop beforeFrag.length).drop 1
  let beforeQ := beforeFrag.takeWhile (fun c => c ≠ '?')
  let query := (beforeFrag.drop beforeQ.length).drop 1
  let (scheme, rest) := cutScheme beforeQ
  if listStartsWith rest ['/', '/'] then
    let afterSlashes := rest.drop 2
    let host := afterSlashes.takeWhile (fun c => c ≠ '/')
    let path := afterSlashes.drop host.length
    { scheme := strToLower ⟨scheme⟩, host := ⟨host⟩, path := ⟨path⟩,
      rawQuery := ⟨query⟩, fragment := ⟨frag⟩ }
  else
    { scheme := strToLower ⟨scheme⟩, host := "", path := ⟨rest⟩,
      rawQuery := ⟨query⟩, fragment := ⟨frag⟩ }

/-- Does the first `/`-segment of `p` contain a `':'`?  (`URL.String`
guards such paths with `./`.) -/
def colonInFirstSeg (p : String) : Bool :=
  (p.data.takeWhile (fun c => c ≠ '/')).contains ':'

/-- Model of Go `URL.String()` for the same subset: `scheme:`, then
`//host` when the URL has an authority, then path, `?query`, `#frag`. -/
def urlString (u : URL) : String :=
  let b1 := if u.scheme ≠ "" then u.scheme ++ ":" else ""
  let b2 := if (u.scheme ≠ "" ∨ u.host ≠ "") ∧ (u.host ≠ "" ∨ u.path ≠ "") then
      b1 ++ "//" ++ u.host
    else b1
  let b3 := if u.path ≠ "" ∧ ¬ goStartsWith u.path "/" ∧ u.host ≠ "" then
      b2 ++ "/"
    else b2
  let b4 := if b3 = "" ∧ colonInFirstSeg u.path then b3 ++ "./" else b3
  let b5 := b4 ++ u.path
  let b6 := if u.rawQuery ≠ "" then b5 ++ "?" ++ u.rawQuery else b5
  if u.fragment ≠ "" then b6 ++ "#" ++ u.fragment else b6

/-- Core of `NormalizeURL` (client.go:849-883) acting on the parsed
URL: clear the fragment, make an empty path `/`, and strip a trailing
`index.html` / `index.htm` (case-insensitively), restoring `/` when the
strip empties the path. -/
def normalizeURLCore (pu : URL) : URL :=
  let pu := { pu with fragment := "" }
  let path := if pu.path = "" then "/" else pu.path
  let lower := strToLower path
  let path :=
    if goEndsWith lower "/index.html" ∨ goEndsWith lower "/index.htm" then
      let p := goTrimSuffix (goTrimSuffix path "/index.html") "/index.htm"
      if p = "" then "/" else p
    else if goEndsWith lower "index.html" ∨ goEndsWith lower "index.htm" then
      let p := goTrimSuffix (goTrimSuffix path "index.html") "index.htm"
      if p = "" then "/" else p
    else path
  { pu with path := path }

/-- `NormalizeURL` as the string-to-string function of the source:
parse, normalize, render. -/
def NormalizeURL (u : String) : String := urlString (normalizeURLCore (urlParse u))

/-- The backtracking step of Go `path.Clean` when a `..` erases the
previous output element.  `rl` is the output buffer in reverse,
`dropped` the character removed by the most recent `out.w--`; keep
dropping while the buffer is longer than `dotdot` and the dropped
character is not a separator. -/
def cleanBacktrackLoop (dotdot : Nat) : List Char → Char → List Char
  | [], _ => []
  | c :: rest, dropped =>
    if rest.length + 1 > dotdot ∧ dropped ≠ '/' then cleanBacktrackLoop dotdot rest c
    else c :: rest

/-- One unconditional drop followed by the backtracking loop
(`out.w--; for out.w > dotdot && out.index(out.w) != '/' ...`). -/
def cleanBacktrack (out : List Char) (dotdot : Nat) : List Char :=
  match out with
  | [] => []
  | c :: rest => cleanBacktrackLoop dotdot rest c

/-- Main loop of Go `path.Clean`, transliterated on character lists.
`rem` is the unread input, `out` the output buffer in reverse order,
`dotdot` the buffer position protected from `..` backtracking.  `fuel`
bounds the iteration count; every step consumes at least one input
character, so `rem.length` fuel is always enough. -/
def cleanLoop (rooted : Bool) : Nat → List Char → List Char → Nat → List Char
  | 0, _, out, _ => out
  | fuel + 1, rem, out, dotdot =>
    match rem with
    | [] => out
    | c :: rest =>
      if c = '/' then cleanLoop rooted fuel rest out dotdot
      else if c = '.' ∧ (rest = [] ∨ rest.head? = some '/') then
        cleanLoop rooted fuel rest out dotdot
      else if c = '.' ∧ rest.head? = some '.' ∧
          (rest.tail = [] ∨ rest.tail.head? = some '/') then
        if out.length > dotdot then
          cleanLoop rooted fuel rest.tail (cleanBacktrack out dotdot) dotdot
        else if ¬ rooted then
          let out2 := '.' :: '.' :: (if out.length > 0 then '/' :: out else out)
          cleanLoop rooted fuel rest.tail out2 out2.length
        else cleanLoop rooted fuel rest.tail out dotdot
      else
        let out2 :=
          if (rooted ∧ out.length ≠ 1) ∨ (¬ rooted ∧ out.length ≠ 0) then '/' :: out
          else out
        let seg := rem.takeWhile (fun x => x ≠ '/')
        cleanLoop rooted fuel (rem.drop seg.length) (seg.reverse ++ out2) dotdot

/-- Go `path.Clean`: lexical simplification of slash-separated paths
(collapse multiple slashes, eliminate `.` and `..` elements). -/
def pathClean (p : String) : String :=
  if p = "" then "."
  else
    let rooted := goStartsWith p "/"
    let chars := p.data
    let rem := if rooted then chars.drop 1 else chars
    let out0 : List Char := if rooted then ['/'] else []
    let dd0 := if rooted then 1 else 0
    let out := cleanLoop rooted (chars.length + 1) rem out0 dd0
    if out.length = 0 then "." else ⟨out.reverse⟩

/-- Go `path.Base`: last element of the path after stripping trailing
slashes; `"."` for the empty path, `"/"` for all-slash paths. -/
def pathBase (p : String) : String :=
  if p = "" then "."
  else
    let r := p.data.reverse.dropWhile (fun c => c = '/')
    let base := (r.takeWhile (fun c => c ≠ '/')).reverse
    if base = [] then "/" else ⟨base⟩

/-- Go `path.Join` on two elements: join the non-empty ones with `/`
and `Clean` the result. -/
def pathJoin (a b : String) : String :=
  if a = "" ∧ b = "" then ""
  else if a = "" then pathClean b
  else if b = "" then pathClean a
  else pathClean (a ++ "/" ++ b)

/-- Go `filepath.Dir` with `/` separators: everything up to and
including the final slash, cleaned (`"."` when there is no slash). -/
def filepathDir (p : String) : String :=
  let keep := (p.data.reverse.dropWhile (fun c => c ≠ '/')).reverse
  pathClean ⟨keep⟩

/-- Drop the common leading segments of two segment lists (the
first-differing-element scan of Go `filepath.Rel`). -/
def dropCommonSegs : List (List Char) → List (List Char) →
    List (List Char) × List (List Char)
  | b :: bs, t :: ts => if b = t then dropCommonSegs bs ts else (b :: bs, t :: ts)
  | bs, ts => (bs, ts)

/-- Go `filepath.Rel` for `/`-separated paths: clean both, require the
same rootedness, drop the common leading segments, and emit one `..` per
remaining base segment followed by the remaining target segments.
`none` models the error return. -/
def filepathRel (basepath targpath : String) : Option String :=
  let base := pathClean basepath
  let targ := pathClean targpath
  if targ = base then some "."
  else
    let base := if base = "." then "" else base
    if goStartsWith base "/" ≠ goStartsWith targ "/" then none
    else
      let bsegs := (splitSlash base.data).filter (fun s => s ≠ [])
      let tsegs := (splitSlash targ.data).filter (fun s => s ≠ [])
      let (bs, ts) := dropCommonSegs bsegs tsegs
      if bs.head? = some ['.', '.'] then none
      else some ⟨joinSlash (bs.map (fun _ => ['.', '.']) ++ ts)⟩

/-- `getDiskPath` (client.go:516-543): the host-relative on-disk path
of a URL.  Empty or `/` paths become `index.html`; directory-like
paths (trailing slash or dot-less last segment) get `/index.html`
appended unless they end in `.php`, which becomes `.html`; file-like
paths are used as given. -/
def getDiskPath (u : URL) : String :=
  if u.path = "" ∨ u.path = "/" then "index.html"
  else
    let p1 := pathClean u.path
    if p1 = "." then "index.html"
    else
      let p := goTrimHead p1 "/"
      let lastSegment := pathBase p
      if goEndsWith u.path "/" ∨ ¬ goContains lastSegment "." then
        if goEndsWith (strToLower p) ".php" then goTrimSuffix p ".php" ++ ".html"
        else pathJoin p "index.html"
      else p

/-- Index of the last `'/'` in a character list. -/
def lastSlashIdx (l : List Char) : Option Nat :=
  ((l.enum.filter (fun x => x.2 = '/')).getLast?).map (fun x => x.1)

/-- The dot-segment-removal loop of Go `net/url.resolvePath`: `dst`
starts as `"/"`; `.` elements are dropped, `..` elements erase the last
written element, other elements are appended behind a separator. -/
def resolveElems : List (List Char) → List Char → Bool → List Char
  | [], dst, _ => dst
  | elem :: rest, dst, first =>
    if elem = ['.'] then resolveElems rest dst false
    else if elem = ['.', '.'] then
      let str := dst.drop 1
      match lastSlashIdx str with
      | none => resolveElems rest ['/'] true
      | some i => resolveElems rest ('/' :: str.take i) first
    else resolveElems rest (dst ++ (if ¬ first then ['/'] else []) ++ elem) false

/-- Go `net/url.resolvePath`: merge `ref` onto `base` per RFC 3986 and
remove dot segments, keeping a trailing slash. -/
def resolvePath (base ref : String) : String :=
  let full :=
    if ref = "" then base.data
    else if ¬ goStartsWith ref "/" then
      (match lastSlashIdx base.data with
       | none => []
       | some i => base.data.take (i + 1)) ++ ref.data
    else ref.data
  if full = [] then ""
  else
    let elems := splitSlash full
    let dst := resolveElems elems ['/'] true
    let dst :=
      if elems.getLast? = some ['.'] ∨ elems.getLast? = some ['.', '.'] then
        dst ++ ['/']
      else dst
    match dst with
    | '/' :: '/' :: rest => ⟨'/' :: rest⟩
    | _ => ⟨dst⟩

/-- Go `URL.ResolveReference` for the modelled subset: an absolute or
authority-bearing reference wins outright; otherwise the reference
path is resolved against the base and query/fragment are inherited
from the base only when the reference has neither path nor query. -/
def resolveReference (base ref : URL) : URL :=
  if ref.scheme ≠ "" ∨ ref.host ≠ "" then
    { ref with
      scheme := if ref.scheme = "" then base.scheme else ref.scheme,
      path := resolvePath ref.path "" }
  else
    let inheritQF := ref.path = "" ∧ ref.rawQuery = ""
    { scheme := base.scheme, host := base.host,
      path := resolvePath base.path ref.path,
      rawQuery := if inheritQF then base.rawQuery else ref.rawQuery,
      fragment :=
        if inheritQF ∧ ref.fragment = "" then base.fragment else ref.fragment }

/-- `calculateRelativePath` (client.go:489-513) on parsed URLs: when
the hosts agree, the relative path from the directory of the source's
on-disk path to the target's on-disk path (`filepath.ToSlash` is the
identity here); different hosts return the rendered target.  `none`
models the error return of `filepath.Rel`. -/
def calculateRelativePath (s t : URL) : Option String :=
  if s.host ≠ t.host then some (urlString t)
  else filepathRel (filepathDir (getDiskPath s)) (getDiskPath t)

/-- The path computed by `SaveFileV2` (client.go:826-848): reject URLs
without a host, otherwise join output root, host, and `getDiskPath`
(`filepath.Join` cleans the joined path). -/
def SaveFileV2Path (outputDir : String) (u : URL) : Option String :=
  if u.host = "" then none
  else some (pathClean (outputDir ++ "/" ++ u.host ++ "/" ++ getDiskPath u))

/-- `DirectoryIndexStrategy.RewriteLink` (client.go:430-486), split so
the final URL record is visible: `none` means the original string is
returned unchanged (external host, special protocol, or a relative-path
error); `some r` means the rendered `r` is returned, where `r` is the
parsed original with its path replaced by the computed relative path
and its scheme and host cleared. -/
def rewriteLinkResult (originalURL baseURL : String) : Option URL :=
  let parsed := urlParse originalURL
  let baseParsed := urlParse baseURL
  if parsed.host ≠ "" ∧ parsed.host ≠ baseParsed.host then none
  else if goStartsWith originalURL "#" ∨ goStartsWith originalURL "javascript:" ∨
      goStartsWith originalURL "mailto:" ∨ goStartsWith originalURL "tel:" ∨
      goStartsWith originalURL "data:" then none
  else
    let target :=
      if ¬ goStartsWith originalURL "http" then resolveReference baseParsed parsed
      else parsed
    match calculateRelativePath baseParsed target with
    | none => none
    | some relPath0 =>
      let relPath1 :=
        if goEndsWith relPath0 "index.html" then goTrimSuffix relPath0 "index.html"
        else relPath0
      let relPath := if relPath1 = "" then "./" else relPath1
      some { parsed with path := relPath, scheme := "", host := "" }

/-- `DirectoryIndexStrategy.RewriteLink` as the string function of the
source. -/
def RewriteLink (originalURL baseURL : String) : String :=
  match rewriteLinkResult originalURL baseURL with
  | none => originalURL
  | some r => urlString r

/-- The two save strategies (tagged sum). -/
inductive FileSaveStrategy where
  | directoryIndex
  | fileOnly
deriving DecidableEq, Repr

/-- Resource extensions of `StrategyAnalyzer.Analyze` (analysis 1). -/
def resourceExtensions : List String :=
  [".css", ".js", ".mjs", ".cjs",
   ".png", ".jpg", ".jpeg", ".gif", ".svg", ".ico", ".webp",
   ".woff", ".woff2", ".ttf", ".eot", ".otf",
   ".mp4", ".webm", ".mp3", ".wav", ".ogg", ".avi", ".mov",
   ".pdf", ".doc", ".docx", ".xls", ".xlsx", ".ppt", ".pptx",
   ".zip", ".rar", ".7z", ".tar", ".gz",
   ".json", ".xml", ".txt", ".csv"]

/-- Resource content types of `StrategyAnalyzer.Analyze` (analysis 2). -/
def resourceContentTypes : List String :=
  ["text/css", "application/javascript", "application/x-javascript",
   "image/", "font/", "audio/", "video/",
   "application/pdf", "application/zip",
   "application/json", "application/xml"]

/-- Page extensions checked in analysis 3. -/
def pageExtensions : List String := [".php", ".html", ".htm", ".asp", ".aspx", ".jsp"]

/-- Static path patterns of analysis 4. -/
def staticPatterns : List String :=
  ["/static/", "/assets/", "/public/", "/resources/",
   "/css/", "/js/", "/images/", "/img/", "/fonts/",
   "/uploads/", "/media/", "/downloads/"]

/-- API path patterns of analysis 5. -/
def apiPatterns : List String := ["/api/", "/ajax/", "/rest/", "/graphql", "/auth/"]

/-- The content sniff of analysis 3: only documents strictly longer
than 100 bytes are inspected, and only their first 100 bytes,
lower-cased, are searched for HTML markers. -/
def sniffsHTML (content : String) : Bool :=
  if content.data.length > 100 then
    let sample := strToLower ⟨content.data.take 100⟩
    goContains sample "<!doctype" || goContains sample "<html" ||
      goContains sample "<head" || goContains sample "<body"
  else false

/-- `StrategyAnalyzer.Analyze` (client.go:596-704): choose a save
strategy from the URL path, the content type, and a content sniff, in
the source's rule order. -/
def Analyze (urlStr contentType content : String) : FileSaveStrategy :=
  let parsed := urlParse urlStr
  let path := parsed.path
  let lowerPath := strToLower path
  if resourceExtensions.any (fun ext => goEndsWith lowerPath ext) then .fileOnly
  else if contentType ≠ "" ∧
      resourceContentTypes.any (fun ct => goContains contentType ct) then .fileOnly
  else if contentType ≠ "" ∧ goContains contentType "text/html" then .directoryIndex
  else if (contentType = "" ∨ contentType = "application/octet-stream") ∧
      sniffsHTML content then .directoryIndex
  else if (contentType = "" ∨ contentType = "application/octet-stream") ∧
      pageExtensions.any (fun ext => goEndsWith lowerPath ext) then .directoryIndex
  else if staticPatterns.any (fun pat => goContains path pat) then .fileOnly
  else if ¬ goContains path "." ∧ path ≠ "/" ∧ path ≠ "" then
    if apiPatterns.any (fun pat => goContains path pat) then .fileOnly
    else .directoryIndex
  else .directoryIndex

/-- The per-attribute body of `LinkRewriterHandlerV2.Handle`
(client.go:765-824): skip empty and `file://` values, choose a strategy
by analyzing the link (with empty content type and no content), rewrite
with that strategy (`FileOnlyStrategy.RewriteLink` is the identity,
client.go:577-580), then normalize bare relative results with a `./`.
This is the in-crawl link rewriter applied to one attribute value. -/
def rewriteAttr (val pageURL : String) : String :=
  if val = "" then val
  else if goStartsWith val "file://" then val
  else
    let newURL :=
      match Analyze val "" "" with
      | .directoryIndex => RewriteLink val pageURL
      | .fileOnly => val
    if newURL ≠ val then
      if ¬ goContains newURL "://" ∧ ¬ goStartsWith newURL "/" then
        if goStartsWith newURL "./" ∨ goStartsWith newURL "../" then newURL
        else "./" ++ newURL
      else newURL
    else val

/-- Static-asset extension whitelist of `DefaultURLFilter.ShouldDownload`
(client.go:724-730). -/
def assetExts : List String :=
  [".css", ".js", ".mjs", ".json", ".map",
   ".png", ".jpg", ".jpeg", ".gif", ".svg", ".ico", ".webp", ".avif",
   ".woff", ".woff2", ".ttf", ".otf", ".eot",
   ".mp4", ".webm", ".mp3", ".wav", ".pdf"]

/-- `DefaultURLFilter.ShouldDownload` (client.go:711-752): reject other
hosts; accept whitelisted asset extensions anywhere on the host; page
candidates (`.html`, `.php`, or dot-less last segment) only inside
`basePath`; accept the rest. -/
def ShouldDownload (domain basePath u : String) : Bool :=
  let parsed := urlParse u
  if parsed.host ≠ domain then false
  else
    let pathLower := strToLower parsed.path
    if assetExts.any (fun ext => goEndsWith pathLower ext) then true
    else
      let isPage := goEndsWith pathLower ".html" || goEndsWith pathLower ".php" ||
        ¬ goContains (pathBase pathLower) "."
      if isPage then goStartsWith parsed.path basePath
      else true

/-- Asset extensions of the second filter variant (client.go:2274). -/
def extsV2 : List String :=
  [".css", ".js", ".png", ".jpg", ".jpeg", ".gif", ".svg", ".ico",
   ".woff", ".ttf", ".webp", ".woff2"]

/-- The second `DefaultURLFilter.ShouldDownload` variant
(client.go:2257-2287): accept anything under `basePath`, asset
extensions anywhere, and additionally any `.php` path anywhere on the
host. -/
def shouldDownloadV2 (domain basePath u : String) : Bool :=
  let parsed := urlParse u
  if parsed.host ≠ domain then false
  else
    let pathNoQ : String := ⟨parsed.path.data.takeWhile (fun c => c ≠ '?')⟩
    if goStartsWith pathNoQ basePath then true
    else if extsV2.any (fun ext => goEndsWith (strToLower parsed.path) ext) then true
    else if goEndsWith (strToLower parsed.path) ".php" then true
    else false

/-- Outcome of one HTTP attempt, abstracting the network: request
creation failure, transport failure, or a response with a status code
and, for 200-responses, the bytes `io.ReadAll(LimitReader ...)`
produced (`none` models a body-read error). -/
inductive AttemptOutcome where
  | reqErr
  | transErr
  | resp (code : Nat) (body : Option (List Nat)) (contentType : String)
deriving DecidableEq, Repr

/-- Result of `Downloader.Download`: the success payload or the error
class the source returns. -/
inductive DlOutcome where
  | success (content : List Nat) (contentType : String)
  | errRequest
  | errDownloadFailed
  | errNotFound
  | errStatus (code : Nat)
  | errRead
  | errTooLarge
deriving DecidableEq, Repr

/-- The retry loop of `Downloader.Download` (client.go:918-981).
`oracle` gives the outcome of each numbered attempt; `budget` counts
the remaining loop iterations (the caller passes `retries`, preserving
`attempt + budget = retries + 1`).  The returned number is how many
attempts were performed.  Mirrors the source: request errors, read
errors, oversize bodies, and 404 end the loop at once; transport
errors and other non-200 statuses retry until `attempt = retries`. -/
def downloadLoop (oracle : Nat → AttemptOutcome) (retries maxSize : Nat) :
    Nat → Nat → DlOutcome × Nat
  | 0, attempt => (.errDownloadFailed, attempt - 1)
  | budget + 1, attempt =>
    match oracle attempt with
    | .reqErr => (.errRequest, attempt)
    | .transErr =>
      if attempt = retries then (.errDownloadFailed, attempt)
      else downloadLoop oracle retries maxSize budget (attempt + 1)
    | .resp code body ct =>
      if code ≠ 200 then
        if code = 404 then (.errNotFound, attempt)
        else if attempt = retries then (.errStatus code, attempt)
        else downloadLoop oracle retries maxSize budget (attempt + 1)
      else
        match body with
        | none => (.errRead, attempt)
        | some content =>
          if content.length > maxSize then (.errTooLarge, attempt)
          else (.success content ct, attempt)

/-- `Downloader.Download`: run the attempt loop from attempt 1 with
`retries` iterations of budget. -/
def Download (oracle : Nat → AttemptOutcome) (retries maxSize : Nat) :
    DlOutcome × Nat :=
  downloadLoop oracle retries maxSize retries 1

/-- Attempt outcomes the source retries: transport errors and HTTP
statuses other than 200 and 404. -/
def retryableB : AttemptOutcome → Bool
  | .transErr => true
  | .resp code _ _ => code ≠ 200 && code ≠ 404
  | .reqErr => false

/-- Outcome classes of one `processURL` call. -/
inductive ProcessOutcome where
  | invalidURL
  | skippedDepth
  | failedDownload
  | skippedDuplicate
  | failedSave
  | saved
deriving DecidableEq, Repr

/-- Counter increments performed for each outcome (`TotalFiles`,
`Failed`, `Skipped`). -/
structure StatsDelta where
  totalFiles : Nat
  failed : Nat
  skipped : Nat
deriving DecidableEq, Repr

/-- The counter updates `processURL` performs per outcome: a saved page
increments `TotalFiles`, failures increment `Failed`, depth or
duplicate skips increment `Skipped`. -/
def outcomeStats : ProcessOutcome → StatsDelta
  | .saved => ⟨1, 0, 0⟩
  | .failedDownload => ⟨0, 1, 0⟩
  | .failedSave => ⟨0, 1, 0⟩
  | .skippedDepth => ⟨0, 0, 1⟩
  | .skippedDuplicate => ⟨0, 0, 1⟩
  | .invalidURL => ⟨0, 0, 0⟩

/-- Control flow of `Job.processURL`, first variant (client.go:1182-1242):
reject non-`http` URLs, skip beyond `maxDepth`, fail on download error;
otherwise the content hash is computed (`hashFn` abstracts
`ContentHash`) but never consulted, and the page is saved whenever the
filesystem write succeeds.  `hashes` is the job's seen-digest set. -/
def processURL (hashFn : List Nat → String) (urlStr : String)
    (depth maxDepth : Nat) (dl : DlOutcome) (saveOk : Bool)
    (_hashes : List String) : ProcessOutcome :=
  if ¬ goStartsWith urlStr "http" then .invalidURL
  else if depth > maxDepth then .skippedDepth
  else
    match dl with
    | .success content _ct =>
      let _hash := hashFn content
      if saveOk then .saved else .failedSave
    | _ => .failedDownload

/-- Control flow of `Job.processURL`, second variant
(client.go:2683-2753): same shape, but a page whose content hash is
already in `hashes` is skipped as a duplicate (the hash gate at
client.go:2701-2711) before any write happens. -/
def processURLv2 (hashFn : List Nat → String) (_urlStr : String)
    (depth maxDepth : Nat) (dl : DlOutcome) (saveOk : Bool)
    (hashes : List String) : ProcessOutcome :=
  if depth > maxDepth then .skippedDepth
  else
    match dl with
    | .success content _ct =>
      let hash := hashFn content
      if hash ∈ hashes then .skippedDuplicate
      else if saveOk then .saved else .failedSave
    | _ => .failedDownload

/-- Shared crawl bookkeeping: the frontier channel contents (in order,
with multiplicity), the visited set, and the depth map. -/
structure CrawlState where
  pending : List String
  visited : List String
  depths : List (String × Nat)
deriving DecidableEq, Repr

/-- Does the depth map contain the key? -/
def hasKey (m : List (String × Nat)) (k : String) : Bool :=
  m.any (fun e => e.1 = k)

/-- Go map assignment `m[k] = v`. -/
def setKey (m : List (String × Nat)) (k : String) (v : Nat) :
    List (String × Nat) :=
  if hasKey m k then m.map (fun e => if e.1 = k then (k, v) else e)
  else m ++ [(k, v)]

/-- Go map assignment `visited[u] = true`. -/
def addVisited (v : List String) (u : String) : List String :=
  if u ∈ v then v else v ++ [u]

/-- The fixed discovery list of `Job.discoverCommonFiles`
(client.go:1143-1146). -/
def commonPaths : List String :=
  ["/404", "/404.html", "/robots.txt", "/sitemap.xml", "/favicon.ico",
   "/apple-touch-icon.png", "/manifest.json"]

/-- Seeding done by `NewJob` on a fresh job (client.go:1081-1087):
enqueue the normalized root, record its depth 0, mark it visited. -/
def newJobSeed (root : String) : CrawlState :=
  let normalized := NormalizeURL root
  { pending := [normalized], visited := [normalized],
    depths := [(normalized, 0)] }

/-- `Job.discoverCommonFiles` (client.go:1142-1171): for each common
path, build `scheme://host + path`, and when the depth map has no such
key, record depth 0 and enqueue it.  The visited set is not touched.
The frontier holds far fewer than its 5000-entry capacity here, so the
non-blocking send always succeeds. -/
def discoverCommonFiles (root : String) (st : CrawlState) : CrawlState :=
  let parsed := urlParse root
  let baseURL := parsed.scheme ++ "://" ++ parsed.host
  commonPaths.foldl
    (fun st p =>
      let targetURL := baseURL ++ p
      if hasKey st.depths targetURL then st
      else
        { st with depths := st.depths ++ [(targetURL, 0)],
                  pending := st.pending ++ [targetURL] })
    st

/-- The seeding prelude of `Job.Run` (client.go:1118-1129): re-record
the normalized root in the depth map and visited set, run the common
file discovery, then enqueue the normalized root (again). -/
def runSeed (root : String) (st : CrawlState) : CrawlState :=
  let normalized := NormalizeURL root
  let st := { st with depths := setKey st.depths normalized 0,
                      visited := addVisited st.visited normalized }
  let st := discoverCommonFiles root st
  { st with pending := st.pending ++ [normalized] }

/-- The crawl state of a fresh job at the moment `Run` spawns its
workers: `NewJob`'s seeding followed by `Run`'s seeding prelude.  No
worker has dequeued anything yet, so this state is reachable. -/
def jobStartState (root : String) : CrawlState :=
  runSeed root (newJobSeed root)

/-! ### Helper lemmas -/

theorem mem_of_listStartsWith {l p : List Char} (h : listStartsWith l p = true) :
    ∀ a ∈ p, a ∈ l := by
  induction p generalizing l with
  | nil => intro a ha; cases ha
  | cons c cs ih =>
    cases l with
    | nil => simp [listStartsWith] at h
    | cons x xs =>
      simp only [listStartsWith, Bool.and_eq_true, decide_eq_true_eq] at h
      intro a ha
      rcases List.mem_cons.mp ha with h1 | h1
      · exact h1 ▸ h.1 ▸ List.mem_cons_self x xs
      · exact List.mem_cons_of_mem x (ih h.2 a h1)

theorem listHasSub_singleton {l : List Char} {a : Char} (h : a ∈ l) :
    listHasSub l [a] = true := by
  induction l with
  | nil => cases h
  | cons c cs ih =>
    rw [listHasSub]
    rcases List.mem_cons.mp h with h1 | h1
    · subst h1
      simp [listStartsWith]
    · simp [ih h1]

theorem listStartsWith_of_append {l p q : List Char}
    (h : listStartsWith l (p ++ q) = true) : listStartsWith l p = true := by
  induction p generalizing l with
  | nil => simp [listStartsWith]
  | cons c cs ih =>
    cases l with
    | nil => simp [listStartsWith] at h
    | cons x xs =>
      simp only [List.cons_append, listStartsWith, Bool.and_eq_true] at h ⊢
      exact ⟨h.1, ih h.2⟩

theorem goContains_dot_of_php {s : String} (h : goEndsWith s ".php" = true) :
    goContains s "." = true := by
  unfold goEndsWith at h
  have hmem : '.' ∈ s.data.reverse :=
    mem_of_listStartsWith h '.' (by decide)
  have : '.' ∈ s.data := List.mem_reverse.mp hmem
  unfold goContains
  have hd : (".").data = ['.'] := by decide
  rw [hd]
  exact listHasSub_singleton this

/-! ### Claims -/

/-- C1 counterexample: in the second `processURL` variant, a fetched
page whose digest is already in the seen set is skipped as a duplicate
(Skipped is incremented) and is not saved or counted in TotalFiles —
refuting the claim that the digest never gates storage. -/
theorem C1_hash_gate_counterexample :
    processURLv2 (fun _ => "h") "https://ex.com/a" 0 1
        (.success [] "text/html") true ["h"] = .skippedDuplicate ∧
      outcomeStats .skippedDuplicate ≠ outcomeStats .saved ∧
      (outcomeStats .skippedDuplicate).totalFiles = 0 := by
  decide

/-- C1 (amended): in the first `processURL` variant the digest never
gates storage: whatever the seen-digest set contains — even the digest
of the fetched page itself — a successfully fetched page within the
depth bound whose write succeeds ends in the `saved` outcome, which
increments TotalFiles. -/
theorem C1_digest_never_gates_v1 (hashFn : List Nat → String)
    (urlStr : String) (depth maxDepth : Nat) (content : List Nat)
    (ct : String) (hashes : List String)
    (hhttp : goStartsWith urlStr "http" = true)
    (hdepth : depth ≤ maxDepth)
    (_hseen : hashFn content ∈ hashes) :
    processURL hashFn urlStr depth maxDepth (.success content ct) true hashes
        = .saved ∧
      (outcomeStats (processURL hashFn urlStr depth maxDepth
        (.success content ct) true hashes)).totalFiles = 1 := by
  have hnd : ¬ depth > maxDepth := by omega
  simp [processURL, hhttp, hnd, outcomeStats]

/-- C1 witness: the amended theorem applied to a concrete page whose
digest is already in the seen set. -/
theorem C1_digest_never_gates_v1_witness :
    processURL (fun _ => "h") "https://ex.com/a" 0 1
        (.success [] "text/html") true ["h"] = .saved := by
  exact (C1_digest_never_gates_v1 (fun _ => "h") "https://ex.com/a" 0 1 []
    "text/html" ["h"] (by decide) (by omega) (by decide)).1

/-- C2 counterexample: the in-crawl rewriter (the per-attribute logic of
`LinkRewriterHandlerV2.Handle`) leaves `/assets/css/a.css` unchanged,
because the analyzer classifies `.css` links as FileOnly and
`FileOnlyStrategy.RewriteLink` is the identity — refuting the claimed
rewrite to `../../../assets/css/a.css`. -/
theorem C2_css_link_counterexample :
    rewriteAttr "/assets/css/a.css" "https://ex.com/ru/chapters/1/"
        = "/assets/css/a.css" ∧
      rewriteAttr "/assets/css/a.css" "https://ex.com/ru/chapters/1/"
        ≠ "../../../assets/css/a.css" := by
  decide

/-- C2 (amended): with base page `https://ex.com/ru/chapters/1/`, the
in-crawl rewriter maps `/ru/chapters/2/` to `../2/` and returns
`https://other.com/x` unchanged, as claimed; but `/assets/css/a.css` is
returned unchanged (asset links are dispatched to the FileOnly
strategy, whose rewrite is the identity) — only the bare
`DirectoryIndexStrategy.RewriteLink` function would produce the claimed
`../../../assets/css/a.css`. -/
theorem C2_rewriter_scenarios :
    rewriteAttr "/ru/chapters/2/" "https://ex.com/ru/chapters/1/" = "../2/" ∧
      rewriteAttr "/assets/css/a.css" "https://ex.com/ru/chapters/1/"
        = "/assets/css/a.css" ∧
      rewriteAttr "https://other.com/x" "https://ex.com/ru/chapters/1/"
        = "https://other.com/x" ∧
      RewriteLink "/assets/css/a.css" "https://ex.com/ru/chapters/1/"
        = "../../../assets/css/a.css" := by
  decide

/-- C3: evaluation of the crawl seeding at the failing input
`https://ex.com/`.  In the state reached when `Run` spawns its workers,
the discovery URL `https://ex.com/404` sits in the frontier and in the
depth map but not in the visited set, and the root URL has been
enqueued twice (once by `NewJob`, once by `Run`) — the code violates
the claimed frontier/depth-map ⊆ visited invariant and the
enqueued-at-most-once guarantee. -/
theorem C3_seed_invariant_violation :
    "https://ex.com/404" ∈ (jobStartState "https://ex.com/").pending ∧
      "https://ex.com/404" ∉ (jobStartState "https://ex.com/").visited ∧
      hasKey (jobStartState "https://ex.com/").depths "https://ex.com/404"
        = true ∧
      ((jobStartState "https://ex.com/").pending.count "https://ex.com/") = 2 := by
  decide

/-- C4 counterexample: `NormalizeURL` maps
`https://ex.com/blog/index.html?p=1#top` to `https://ex.com/blog?p=1` —
stripping the whole `/index.html` suffix including the slash — not to
the claimed `https://ex.com/blog/?p=1`. -/
theorem C4_normalize_counterexample :
    NormalizeURL "https://ex.com/blog/index.html?p=1#top"
        = "https://ex.com/blog?p=1" ∧
      NormalizeURL "https://ex.com/blog/index.html?p=1#top"
        ≠ "https://ex.com/blog/?p=1" := by
  decide

/-- C4 (amended): `NormalizeURL` maps
`https://ex.com/blog/index.html?p=1#top` to `https://ex.com/blog?p=1`
(fragment dropped, `/index.html` suffix stripped with its slash, query
preserved), and maps `https://ex.com` to `https://ex.com/`. -/
theorem C4_normalize_scenarios :
    NormalizeURL "https://ex.com/blog/index.html?p=1#top"
        = "https://ex.com/blog?p=1" ∧
      NormalizeURL "https://ex.com" = "https://ex.com/" := by
  decide

/-- C5 counterexample: the save-path function stores
`https://ex.com/a/b.php` at `<root>/ex.com/a/b.php` — the `.php`
extension is kept, not rewritten to `.html` as claimed (the rewrite is
only reachable for paths with a trailing slash). -/
theorem C5_php_not_rewritten_counterexample :
    SaveFileV2Path "out" (urlParse "https://ex.com/a/b.php")
        = some "out/ex.com/a/b.php" ∧
      SaveFileV2Path "out" (urlParse "https://ex.com/a/b.php")
        ≠ some "out/ex.com/a/b.html" := by
  decide

/-- C5 (amended): for every URL with a clean, non-slash-terminated path
whose last segment ends in `.php`, `getDiskPath` keeps the path (and
its `.php` extension) unchanged under the host directory; the
`.php` → `.html` rewrite happens only when the URL path ends in `/`. -/
theorem C5_php_kept_without_trailing_slash (u : URL)
    (hclean : pathClean u.path = u.path)
    (hslash : goEndsWith u.path "/" = false)
    (hphp : goEndsWith (pathBase (goTrimHead u.path "/")) ".php" = true) :
    getDiskPath u = goTrimHead u.path "/" := by
  have hne : u.path ≠ "" := by
    intro h
    rw [h] at hclean
    exact absurd hclean (by decide)
  have hnslash : u.path ≠ "/" := by
    intro h
    rw [h] at hslash
    exact absurd hslash (by decide)
  have hndot : u.path ≠ "." := by
    intro h
    rw [h] at hphp
    exact absurd hphp (by decide)
  have hcontains : goContains (pathBase (goTrimHead u.path "/")) "." = true :=
    goContains_dot_of_php hphp
  unfold getDiskPath
  rw [if_neg (by tauto), hclean, if_neg hndot]
  rw [if_neg]
  simp [hslash, hcontains]

/-- C5 witness: the amended theorem applied to `https://ex.com/a/b.php`,
whose save path keeps the `.php` name. -/
theorem C5_php_kept_without_trailing_slash_witness :
    getDiskPath (urlParse "https://ex.com/a/b.php")
        = goTrimHead (urlParse "https://ex.com/a/b.php").path "/" := by
  exact C5_php_kept_without_trailing_slash (urlParse "https://ex.com/a/b.php")
    (by decide) (by decide) (by decide)

/-- C6 counterexample: the second filter variant accepts the page
candidate `https://ex.com/secret/x.php` although its path does not
begin with the base path `/blog/` — refuting the claim that page
candidates are accepted only inside the base path. -/
theorem C6_php_outside_base_counterexample :
    shouldDownloadV2 "ex.com" "/blog/" "https://ex.com/secret/x.php" = true ∧
      goStartsWith (urlParse "https://ex.com/secret/x.php").path "/blog/"
        = false := by
  decide

/-- C6 (amended): the first (strict) filter variant behaves as claimed:
other hosts are rejected, whitelisted asset extensions are accepted
anywhere on the domain, and page candidates are accepted exactly when
their path begins with the base path; the four concrete scenarios
follow.  (The second filter variant additionally accepts `.php` paths
outside the base path, see the counterexample.) -/
theorem C6_filter_scenarios_v1 (domain basePath u : String) :
    ((urlParse u).host ≠ domain → ShouldDownload domain basePath u = false) ∧
      ((urlParse u).host = domain →
        assetExts.any (fun ext => goEndsWith (strToLower (urlParse u).path) ext)
          = true →
        ShouldDownload domain basePath u = true) ∧
      ((urlParse u).host = domain →
        assetExts.any (fun ext => goEndsWith (strToLower (urlParse u).path) ext)
          = false →
        (goEndsWith (strToLower (urlParse u).path) ".html" ||
          goEndsWith (strToLower (urlParse u).path) ".php" ||
          ¬ goContains (pathBase (strToLower (urlParse u).path)) ".") = true →
        ShouldDownload domain basePath u
          = goStartsWith (urlParse u).path basePath) ∧
      ShouldDownload "ex.com" "/blog/" "https://ex.com/blog/post" = true ∧
      ShouldDownload "ex.com" "/blog/" "https://ex.com/about" = false ∧
      ShouldDownload "ex.com" "/blog/" "https://ex.com/static/app.js" = true ∧
      ShouldDownload "ex.com" "/blog/" "https://other.com/blog/x" = false := by
  refine ⟨?_, ?_, ?_, by decide, by decide, by decide, by decide⟩
  · intro h
    simp only [ShouldDownload]
    rw [if_pos h]
  · intro h ha
    simp only [ShouldDownload]
    rw [if_neg (by simp [h]), if_pos ha]
  · intro h ha hp
    simp only [ShouldDownload]
    rw [if_neg (by simp [h]), if_neg (by simp [ha]), if_pos hp]

/-- C6 witness: the amended theorem applied concretely — the asset
`app.js` is accepted from outside the base path, and the page `/about`
is decided by the base-path check. -/
theorem C6_filter_scenarios_v1_witness :
    ShouldDownload "ex.com" "/blog/" "https://ex.com/static/app.js" = true ∧
      ShouldDownload "ex.com" "/blog/" "https://ex.com/about"
        = goStartsWith (urlParse "https://ex.com/about").path "/blog/" := by
  constructor
  · exact (C6_filter_scenarios_v1 "ex.com" "/blog/"
      "https://ex.com/static/app.js").2.1 (by decide) (by decide)
  · exact (C6_filter_scenarios_v1 "ex.com" "/blog/"
      "https://ex.com/about").2.2.1 (by decide) (by decide) (by decide)

/-- Attempt counts never exceed the retry budget: invariant form over
the loop, `attempt + budget = retries + 1`. -/
theorem downloadLoop_attempts_le (oracle : Nat → AttemptOutcome)
    (retries maxSize : Nat) :
    ∀ budget attempt, attempt + budget = retries + 1 →
      (downloadLoop oracle retries maxSize budget attempt).2 ≤ retries := by
  intro budget
  induction budget with
  | zero =>
    intro attempt h
    unfold downloadLoop
    omega
  | succ b ih =>
    intro attempt h
    unfold downloadLoop
    cases hor : oracle attempt with
    | reqErr => simp; omega
    | transErr =>
      split_ifs with he
      · simp; omega
      · exact ih (attempt + 1) (by omega)
    | resp code body ct =>
      dsimp only
      by_cases h200 : code ≠ 200
      · rw [if_pos h200]
        by_cases h404 : code = 404
        · rw [if_pos h404]; simp; omega
        · rw [if_neg h404]
          by_cases hlast : attempt = retries
          · rw [if_pos hlast]; simp; omega
          · rw [if_neg hlast]
            exact ih (attempt + 1) (by omega)
      · rw [if_neg h200]
        cases body with
        | none => simp; omega
        | some content =>
          dsimp only
          by_cases hsize : content.length > maxSize
          · rw [if_pos hsize]; simp; omega
          · rw [if_neg hsize]; simp; omega

/-- A 404 at attempt `k`, with all earlier attempts retryable, makes
the loop return the not-found error after exactly `k` attempts. -/
theorem downloadLoop_404 (oracle : Nat → AttemptOutcome)
    (retries maxSize : Nat) :
    ∀ budget attempt k body ct, attempt + budget = retries + 1 →
      attempt ≤ k → k ≤ retries →
      oracle k = .resp 404 body ct →
      (∀ i, attempt ≤ i → i < k → retryableB (oracle i) = true) →
      downloadLoop oracle retries maxSize budget attempt = (.errNotFound, k) := by
  intro budget
  induction budget with
  | zero =>
    intro attempt k body ct h hak hkr hk hr
    exfalso; omega
  | succ b ih =>
    intro attempt k body ct h hak hkr hk hr
    unfold downloadLoop
    by_cases heq : attempt = k
    · subst heq
      simp only [hk]
      norm_num
    · have hlt : attempt < k := by omega
      have hretry := hr attempt le_rfl hlt
      cases hor : oracle attempt with
      | reqErr => rw [hor] at hretry; simp [retryableB] at hretry
      | transErr =>
        simp only [hor]
        rw [if_neg (by omega : ¬ attempt = retries)]
        exact ih (attempt + 1) k body ct (by omega) (by omega) hkr hk
          (fun i h1 h2 => hr i (by omega) h2)
      | resp code body2 ct2 =>
        rw [hor] at hretry
        simp only [retryableB, Bool.and_eq_true, decide_eq_true_eq] at hretry
        simp only [hor]
        rw [if_pos hretry.1, if_neg hretry.2,
          if_neg (by omega : ¬ attempt = retries)]
        exact ih (attempt + 1) k body ct (by omega) (by omega) hkr hk
          (fun i h1 h2 => hr i (by omega) h2)

/-- When every attempt in the remaining budget is retryable, the loop
uses all `retries` attempts and ends in a retry-exhaustion error. -/
theorem downloadLoop_exhaust (oracle : Nat → AttemptOutcome)
    (retries maxSize : Nat) :
    ∀ budget attempt, attempt + budget = retries + 1 → attempt ≤ retries →
      (∀ i, attempt ≤ i → i ≤ retries → retryableB (oracle i) = true) →
      (downloadLoop oracle retries maxSize budget attempt).2 = retries ∧
        ((downloadLoop oracle retries maxSize budget attempt).1
            = .errDownloadFailed ∨
          ∃ code, (downloadLoop oracle retries maxSize budget attempt).1
            = .errStatus code) := by
  intro budget
  induction budget with
  | zero =>
    intro attempt h hle hr
    exfalso; omega
  | succ b ih =>
    intro attempt h hle hr
    have hretry := hr attempt le_rfl hle
    cases hor : oracle attempt with
    | reqErr => rw [hor] at hretry; simp [retryableB] at hretry
    | transErr =>
      unfold downloadLoop
      simp only [hor]
      by_cases he : attempt = retries
      · rw [if_pos he]
        exact ⟨he, Or.inl rfl⟩
      · rw [if_neg he]
        exact ih (attempt + 1) (by omega) (by omega)
          (fun i h1 h2 => hr i (by omega) h2)
    | resp code body ct =>
      rw [hor] at hretry
      simp only [retryableB, Bool.and_eq_true, decide_eq_true_eq] at hretry
      unfold downloadLoop
      simp only [hor]
      rw [if_pos hretry.1, if_neg hretry.2]
      by_cases he : attempt = retries
      · rw [if_pos he]
        exact ⟨he, Or.inr ⟨code, rfl⟩⟩
      · rw [if_neg he]
        exact ih (attempt + 1) (by omega) (by omega)
          (fun i h1 h2 => hr i (by omega) h2)

/-- C7: `Downloader.Download` performs at most `retries` attempts; a
404 response ends the call at once with an error, regardless of the
remaining budget; and when every attempt fails retryably (transport
error or a non-200, non-404 status) the call uses exactly `retries`
attempts and returns an error. -/
theorem C7_download_retry_policy (oracle : Nat → AttemptOutcome)
    (retries maxSize : Nat) :
    (Download oracle retries maxSize).2 ≤ retries ∧
      (∀ k body ct, 1 ≤ k → k ≤ retries → oracle k = .resp 404 body ct →
        (∀ i, 1 ≤ i → i < k → retryableB (oracle i) = true) →
        Download oracle retries maxSize = (.errNotFound, k)) ∧
      (1 ≤ retries →
        (∀ i, 1 ≤ i → i ≤ retries → retryableB (oracle i) = true) →
        (Download oracle retries maxSize).2 = retries ∧
          ((Download oracle retries maxSize).1 = .errDownloadFailed ∨
            ∃ code, (Download oracle retries maxSize).1 = .errStatus code)) := by
  refine ⟨?_, ?_, ?_⟩
  · exact downloadLoop_attempts_le oracle retries maxSize retries 1 (by omega)
  · intro k body ct h1 h2 h3 h4
    exact downloadLoop_404 oracle retries maxSize retries 1 k body ct
      (by omega) h1 h2 h3 h4
  · intro h1 h2
    exact downloadLoop_exhaust oracle retries maxSize retries 1 (by omega) h1 h2

/-- C7 witness: a transport error followed by a 404 stops after two
attempts, and all-transport-errors exhausts exactly the budget. -/
theorem C7_download_retry_policy_witness :
    Download (fun i => if i = 1 then .transErr else .resp 404 none "") 5 100
        = (.errNotFound, 2) ∧
      (Download (fun _ => .transErr) 3 50).2 = 3 := by
  constructor
  · exact (C7_download_retry_policy
      (fun i => if i = 1 then .transErr else .resp 404 none "") 5 100).2.1
      2 none "" (by omega) (by omega) (by decide)
      (fun i h1 h2 => by
        have hi : i = 1 := by omega
        subst hi
        decide)
  · exact ((C7_download_retry_policy (fun _ => .transErr) 3 50).2.2
      (by omega) (fun i _ _ => by decide)).1

/-- The normalizer always clears the fragment. -/
theorem normalizeURLCore_fragment (u : URL) :
    (normalizeURLCore u).fragment = "" := rfl

/-- The normalizer never outputs an empty path. -/
theorem normalizeURLCore_path_ne (u : URL) :
    (normalizeURLCore u).path ≠ "" := by
  unfold normalizeURLCore
  dsimp only
  split_ifs <;> simp_all

/-- A string that does not end in `index.html` does not end in
`/index.html` either. -/
theorem goEndsWith_slash_index_html {s : String}
    (h : goEndsWith s "index.html" = false) :
    goEndsWith s "/index.html" = false := by
  by_contra hc
  rw [Bool.not_eq_false] at hc
  unfold goEndsWith at hc h
  have hdec : ("/index.html").data.reverse
      = ("index.html").data.reverse ++ ['/'] := by decide
  rw [hdec] at hc
  rw [listStartsWith_of_append hc] at h
  cases h

/-- A string that does not end in `index.htm` does not end in
`/index.htm` either. -/
theorem goEndsWith_slash_index_htm {s : String}
    (h : goEndsWith s "index.htm" = false) :
    goEndsWith s "/index.htm" = false := by
  by_contra hc
  rw [Bool.not_eq_false] at hc
  unfold goEndsWith at hc h
  have hdec : ("/index.htm").data.reverse
      = ("index.htm").data.reverse ++ ['/'] := by decide
  rw [hdec] at hc
  rw [listStartsWith_of_append hc] at h
  cases h

/-- C8 counterexample: `NormalizeURL` is not idempotent as a
string-to-string function — normalizing
`https://ex.com/index.html/index.html` yields
`https://ex.com/index.html`, and normalizing that output again strips
further, to `https://ex.com/`. -/
theorem C8_normalize_not_idempotent :
    NormalizeURL (NormalizeURL "https://ex.com/index.html/index.html")
        ≠ NormalizeURL "https://ex.com/index.html/index.html" ∧
      NormalizeURL "https://ex.com/index.html/index.html"
        = "https://ex.com/index.html" ∧
      NormalizeURL "https://ex.com/index.html" = "https://ex.com/" := by
  decide

/-- C8 (amended): normalization is idempotent for every URL whose
normalized path does not itself end (case-insensitively) in
`index.html` or `index.htm`; one stripping step can expose another such
suffix, and only then does a second application differ. -/
theorem C8_normalize_idempotent_amended (u : URL)
    (h1 : goEndsWith (strToLower (normalizeURLCore u).path) "index.html" = false)
    (h2 : goEndsWith (strToLower (normalizeURLCore u).path) "index.htm" = false) :
    normalizeURLCore (normalizeURLCore u) = normalizeURLCore u := by
  have hpath := normalizeURLCore_path_ne u
  rcases hE : normalizeURLCore u with ⟨s, ho, p, q, f⟩
  rw [hE] at h1 h2 hpath
  have hf : f = "" := by
    have := normalizeURLCore_fragment u
    rw [hE] at this
    exact this
  subst hf
  dsimp only at h1 h2 hpath
  have h1s := goEndsWith_slash_index_html h1
  have h2s := goEndsWith_slash_index_htm h2
  unfold normalizeURLCore
  dsimp only
  rw [if_neg hpath]
  rw [if_neg (by simp [h1s, h2s]), if_neg (by simp [h1, h2])]

/-- C8 witness: the amended idempotence applied to the normalization of
`https://ex.com/blog/`, whose normalized path has no index suffix. -/
theorem C8_normalize_idempotent_amended_witness :
    normalizeURLCore (normalizeURLCore (urlParse "https://ex.com/blog/"))
        = normalizeURLCore (urlParse "https://ex.com/blog/") := by
  exact C8_normalize_idempotent_amended (urlParse "https://ex.com/blog/")
    (by decide) (by decide)

/-- C9: whenever the in-crawl rewriter rewrites a link (the
`DirectoryIndexStrategy.RewriteLink` path returns a new URL rather than
the original), the produced URL carries exactly the query string and
the fragment of the original link: only path, scheme and host are
replaced. -/
theorem C9_rewrite_preserves_query_fragment (o b : String) (r : URL)
    (h : rewriteLinkResult o b = some r) :
    r.rawQuery = (urlParse o).rawQuery ∧ r.fragment = (urlParse o).fragment := by
  unfold rewriteLinkResult at h
  dsimp only at h
  split_ifs at h
  all_goals split at h <;>
    first
      | exact Option.noConfusion h
      | (injection h with h
         subst h
         exact ⟨rfl, rfl⟩)

/-- C9 witness: the theorem applied to the rewrite of
`/ru/chapters/2/?v=1#sec` from `https://ex.com/ru/chapters/1/`, which
produces `../2/?v=1#sec`. -/
theorem C9_rewrite_preserves_query_fragment_witness :
    (⟨"", "", "../2/", "v=1", "sec"⟩ : URL).rawQuery
        = (urlParse "/ru/chapters/2/?v=1#sec").rawQuery ∧
      (⟨"", "", "../2/", "v=1", "sec"⟩ : URL).fragment
        = (urlParse "/ru/chapters/2/?v=1#sec").fragment := by
  exact C9_rewrite_preserves_query_fragment "/ru/chapters/2/?v=1#sec"
    "https://ex.com/ru/chapters/1/" ⟨"", "", "../2/", "v=1", "sec"⟩ (by decide)

/-- Bodies of at most 100 characters are never sniffed. -/
theorem sniffsHTML_eq_false {content : String}
    (h : content.data.length ≤ 100) : sniffsHTML content = false := by
  unfold sniffsHTML
  rw [if_neg (by omega)]

/-- C10: when the content type is empty or `application/octet-stream`
and the fetched body is 100 bytes or fewer, the analyzer never
classifies by HTML sniffing — the strategy is the same as for an empty
body, i.e. decided only by the URL path rules. -/
theorem C10_small_body_never_sniffed (urlStr contentType content : String)
    (_hct : contentType = "" ∨ contentType = "application/octet-stream")
    (hlen : content.data.length ≤ 100) :
    Analyze urlStr contentType content = Analyze urlStr contentType "" := by
  unfold Analyze
  simp only [sniffsHTML_eq_false hlen,
    sniffsHTML_eq_false (show ("" : String).data.length ≤ 100 by decide)]

/-- C10 witness: a 5-character body with empty content type is analyzed
exactly like an empty body. -/
theorem C10_small_body_never_sniffed_witness :
    Analyze "https://ex.com/x" "" "<html" = Analyze "https://ex.com/x" "" "" := by
  exact C10_small_body_never_sniffed "https://ex.com/x" "" "<html"
    (Or.inl rfl) (by decide)

end WebDL
